import Mathlib

/-!
Verification of the agent engine, tool registry and todo-list state of the
`ai-cli` repository, shallowly embedded in Lean 4.

The embedding follows the Python sources:
  * `src/tools/todo.py`    — `TodoItem`, `TodoList` and the todo tools;
  * `src/tools/base.py`    — `ToolResult`, `Tool`, `ToolRegistry`;
  * `src/agent/state.py`   — `Message`, `AgentState`, `TodoState`;
  * `src/agent/providers.py` — `AgentResponse`, the provider contract;
  * `src/agent/engine.py`  — `AgentEngine`, `AgentResult`.

Python values that cross the tool boundary (parsed JSON arguments, tool
result data) are modelled by the `JsonValue` type below.  Python's `dict`
is modelled as an association list with first-match lookup and
overwrite-in-place update, which matches `dict` semantics for the unique
keys produced by the code.  Exceptions are modelled with `Except String`.
-/

namespace AiCli

/-- Values produced by Python's `json.loads`, and used for tool `data`
payloads.  Numbers are modelled as integers (no claim uses floats). -/
inductive JsonValue where
  | null
  | bool (b : Bool)
  | num (n : Int)
  | str (s : String)
  | arr (elems : List JsonValue)
  | obj (fields : List (String × JsonValue))

/-- Python truthiness of a JSON value (`if result.data:` in the engine). -/
def JsonValue.truthy : JsonValue → Bool
  | .null => false
  | .bool b => b
  | .num n => n != 0
  | .str s => !(s == "")
  | .arr l => !l.isEmpty
  | .obj l => !l.isEmpty

/-- First-match lookup in an association list, i.e. Python `d.get(k)` for the
unique-key dicts produced by the code. -/
def dictGet (d : List (String × String)) (k : String) : Option String :=
  (d.find? (fun p => p.1 == k)).map (fun p => p.2)

/-- Python `d[k] = v`: overwrite in place if the key exists, else append. -/
def dictSet (d : List (String × String)) (k v : String) : List (String × String) :=
  if d.any (fun p => p.1 == k) then
    d.map (fun p => if p.1 == k then (k, v) else p)
  else
    d ++ [(k, v)]

/-- Lookup in a JSON-valued dict (used for the engine's `final_output`). -/
def dictGetJ (d : List (String × JsonValue)) (k : String) : Option JsonValue :=
  (d.find? (fun p => p.1 == k)).map (fun p => p.2)

/-- Python `d[k] = v` for JSON-valued dicts. -/
def dictSetJ (d : List (String × JsonValue)) (k : String) (v : JsonValue) :
    List (String × JsonValue) :=
  if d.any (fun p => p.1 == k) then
    d.map (fun p => if p.1 == k then (k, v) else p)
  else
    d ++ [(k, v)]

/-- Python `d.update(m)` for JSON-valued dicts. -/
def dictUpdateJ (d m : List (String × JsonValue)) : List (String × JsonValue) :=
  m.foldl (fun acc p => dictSetJ acc p.1 p.2) d

/-! ## Todo model (`src/tools/todo.py`) -/

/-- `TodoItem` from `todo.py`: number, text, completion flag. -/
structure TodoItem where
  number : Nat
  text : String
  completed : Bool := false
deriving Repr, DecidableEq

/-- `TodoItem.to_markdown`: `- [x] N. text` or `- [ ] N. text`. -/
def TodoItem.toMarkdown (it : TodoItem) : String :=
  let checkbox := if it.completed then "[x]" else "[ ]"
  "- " ++ checkbox ++ " " ++ toString it.number ++ ". " ++ it.text

/-- `TodoList` from `todo.py`: ordered items plus the `_next_number`
counter (field `nextNumber` here; it starts at 1). -/
structure TodoList where
  items : List TodoItem := []
  nextNumber : Nat := 1
deriving Repr, DecidableEq

/-- `TodoList.add`: append a new item carrying `_next_number`, bump the
counter, return the assigned number. -/
def TodoList.add (l : TodoList) (text : String) : TodoList × Nat :=
  let item : TodoItem := { number := l.nextNumber, text := text }
  ({ items := l.items ++ [item], nextNumber := l.nextNumber + 1 }, item.number)

/-- Helper for `TodoList.edit`: mutate the first item whose number matches
(`_find_item` returns the first match), leaving order and numbers intact.
Returns the new item list and whether a match was found. -/
def editFirst : List TodoItem → Nat → Option Bool → Option String →
    List TodoItem × Bool
  | [], _, _, _ => ([], false)
  | it :: rest, number, status, text =>
    if it.number = number then
      ({ it with completed := status.getD it.completed,
                 text := text.getD it.text } :: rest, true)
    else
      let (rest', found) := editFirst rest number status text
      (it :: rest', found)

/-- `TodoList.edit`: edit status and/or text of the item with the given
number; `False` when no such item exists. -/
def TodoList.edit (l : TodoList) (number : Nat) (status : Option Bool)
    (text : Option String) : TodoList × Bool :=
  let (items', found) := editFirst l.items number status text
  ({ l with items := items' }, found)

/-- `TodoList.clear`: drop all items and reset `_next_number` to 1. -/
def TodoList.clear (_l : TodoList) : TodoList :=
  { items := [], nextNumber := 1 }

/-- `TodoList.to_markdown`: `"No todos yet."` when empty, else the items'
markdown lines joined by newlines. -/
def TodoList.toMarkdown (l : TodoList) : String :=
  if l.items.isEmpty then "No todos yet."
  else String.intercalate "\n" (l.items.map TodoItem.toMarkdown)

/-- `TodoList.get_stats`: total, completed and pending item counts. -/
def TodoList.getStats (l : TodoList) : List (String × JsonValue) :=
  let total := l.items.length
  let completed := (l.items.filter (fun it => it.completed)).length
  [("total_items", .num total), ("completed_items", .num completed),
   ("pending_items", .num ((total : Int) - completed))]

/-- The mutating operations `TodoList` exposes (there is no per-item
delete in the source). -/
inductive TodoOp where
  | add (text : String)
  | edit (number : Nat) (status : Option Bool) (text : Option String)
  | clear

/-- Apply one todo operation, discarding the returned value. -/
def TodoOp.apply (l : TodoList) : TodoOp → TodoList
  | .add t => (l.add t).1
  | .edit n s t => (l.edit n s t).1
  | .clear => l.clear

/-- Run a sequence of operations against a freshly-constructed list. -/
def applyOps (ops : List TodoOp) : TodoList :=
  ops.foldl TodoOp.apply {}

/-! ## Tool contract and registry (`src/tools/base.py`) -/

/-- `ToolResult` from `base.py`: success flag, optional data, optional
error string. -/
structure ToolResult where
  success : Bool
  data : Option JsonValue := none
  error : Option String := none

/-- A registered tool: its `name` property plus its `execute` method.
`execute` receives the keyword arguments (a parsed JSON object) and either
returns a `ToolResult` or raises (`Except.error`); argument-binding
failures of the Python call `tool.execute(**kwargs)` are raises too.  The
`description` and parameter schema never influence dispatch, so they are
not needed by any claim and are carried only as data. -/
structure Tool where
  name : String
  description : String := ""
  execute : List (String × JsonValue) → Except String ToolResult

/-- `ToolRegistry._tools` is a name-keyed `dict`; since `register` refuses
duplicate names the registry is its registration-ordered tool list. -/
abbrev ToolRegistry := List Tool

/-- `ToolRegistry.get_tool`: dict lookup, `None` when absent. -/
def getTool (reg : ToolRegistry) (name : String) : Option Tool :=
  reg.find? (fun t => t.name == name)

/-- `ToolRegistry.get_tool_names`: names in registration order. -/
def getToolNames (reg : ToolRegistry) : List String :=
  reg.map (fun t => t.name)

/-- `ToolRegistry.execute_tool`: total dispatch.  Unknown names give a
failed result listing the registered names; a raise from the tool's
`execute` is caught and wrapped in a failed result. -/
def executeTool (reg : ToolRegistry) (name : String)
    (kwargs : List (String × JsonValue)) : ToolResult :=
  match getTool reg name with
  | none =>
    { success := false,
      error := some ("Tool \x27" ++ name ++ "\x27 not found. Available tools: "
        ++ String.intercalate ", " (getToolNames reg)) }
  | some tool =>
    match tool.execute kwargs with
    | .ok r => r
    | .error e =>
      { success := false,
        error := some ("Tool \x27" ++ name ++ "\x27 execution failed: " ++ e) }

/-! ## Conversation state (`src/agent/state.py`) -/

/-- The wire form of one requested tool call, as handed from the provider
to the engine: `\x7b"id": ..., "type": ..., "function": \x7b"name": ...,
"arguments": ...\x7d\x7d`.  Each field is optional because the engine
tolerates malformed entries (`tool_call["..."]` raising `KeyError` is
caught); a missing `function` sub-dict is represented by both `fnName`
and `fnArguments` being `none`.  The `type` field is never read. -/
structure ToolCallWire where
  id : Option String := none
  fnName : Option String := none
  fnArguments : Option String := none
deriving Repr, DecidableEq

/-- `Message` from `state.py`: one conversation turn. -/
structure Message where
  role : String
  content : String
  tool_calls : Option (List ToolCallWire) := none
  tool_call_id : Option String := none
deriving Repr, DecidableEq

/-- `TodoState` from `state.py`: wraps the todo list. -/
structure TodoState where
  todo_list : TodoList := {}
deriving Repr, DecidableEq

/-- `AgentState` from `state.py`.  `files_explored` is a Python `set` of
paths; it is modelled as a deduplicated list (membership is all any claim
uses).  `metadata` values written by the engine are strings. -/
structure AgentState where
  messages : List Message := []
  files_explored : List String := []
  current_focus : Option String := none
  iteration_count : Nat := 0
  should_continue : Bool := true
  todo_state : Option TodoState := none
  metadata : List (String × String) := []

def AgentState.addMessage (s : AgentState) (m : Message) : AgentState :=
  { s with messages := s.messages ++ [m] }

def AgentState.addUserMessage (s : AgentState) (content : String) : AgentState :=
  s.addMessage { role := "user", content := content }

def AgentState.addAssistantMessage (s : AgentState) (content : String)
    (tool_calls : Option (List ToolCallWire)) : AgentState :=
  s.addMessage { role := "assistant", content := content, tool_calls := tool_calls }

def AgentState.addToolMessage (s : AgentState) (content : String)
    (tool_call_id : String) : AgentState :=
  s.addMessage { role := "tool", content := content, tool_call_id := some tool_call_id }

/-- `AgentState.get_last_assistant_message`: scan history in reverse. -/
def AgentState.getLastAssistantMessage (s : AgentState) : Option Message :=
  s.messages.reverse.find? (fun m => m.role == "assistant")

/-- `AgentState.add_explored_file`: idempotent set insertion. -/
def AgentState.addExploredFile (s : AgentState) (p : String) : AgentState :=
  if p ∈ s.files_explored then s
  else { s with files_explored := s.files_explored ++ [p] }

/-- `AgentState.get_exploration_summary`. -/
def AgentState.getExplorationSummary (s : AgentState) : String :=
  match s.files_explored with
  | [] => "No files explored"
  | [p] => "Explored 1 file: " ++ p
  | ps => "Explored " ++ toString ps.length ++ " files and directories"

/-- `AgentState.increment_iteration`. -/
def AgentState.incrementIteration (s : AgentState) : AgentState :=
  { s with iteration_count := s.iteration_count + 1 }

/-- `AgentState.stop_execution`: clear the continuation flag and, when a
reason is given, record it under `stop_reason`. -/
def AgentState.stopExecution (s : AgentState) (reason : Option String) : AgentState :=
  let s' := { s with should_continue := false }
  match reason with
  | some r => { s' with metadata := dictSet s'.metadata "stop_reason" r }
  | none => s'

/-- `AgentState.initialize_todo_state`: lazy idempotent creation. -/
def AgentState.initTodoState (s : AgentState) : AgentState × TodoState :=
  match s.todo_state with
  | some ts => (s, ts)
  | none => ({ s with todo_state := some ({} : TodoState) }, {})

/-! ## Provider contract (`src/agent/providers.py`) -/

/-- `AgentResponse` from `providers.py` (the `raw_response` field is never
read by the engine and is omitted). -/
structure AgentResponse where
  message : String
  tool_calls : List ToolCallWire
  should_continue : Bool := true

/-- `AgentResponse.has_tool_calls`: `len(self.tool_calls) > 0`. -/
def AgentResponse.hasToolCalls (r : AgentResponse) : Bool :=
  !r.tool_calls.isEmpty

/-! ## Agent engine (`src/agent/engine.py`) -/

/-- `AgentEngine` configuration.  `provider` models
`provider.generate_with_tools(messages, tools, max_tool_calls)`: it is an
arbitrary function of the call number (which equals the iteration counter,
since the engine calls it exactly once per pass) and the conversation so
far, which either returns an `AgentResponse` or raises.  The tool-schema
and `max_tool_calls=5` arguments are fixed data the provider may absorb.
`jsonLoads` models the Python standard-library `json.loads`, which either
returns a value or raises `json.JSONDecodeError`. -/
structure AgentEngine where
  provider : Nat → List Message → Except String AgentResponse
  tools : ToolRegistry
  jsonLoads : String → Except String JsonValue
  maxIterations : Int := 15

/-- Stand-in for Python's `json.dumps(data, indent=2)` in
`_format_tool_result` (the exact whitespace of the rendering is not
modelled; no claim depends on this string). -/
def jsonDumps : JsonValue → String
  | .null => "null"
  | .bool b => if b then "true" else "false"
  | .num n => toString n
  | .str s => "\"" ++ s ++ "\""
  | .arr l => "[" ++ String.intercalate ", " (l.attach.map (fun v => jsonDumps v.1)) ++ "]"
  | .obj l => "\x7b" ++ String.intercalate ", "
      (l.attach.map (fun p => "\"" ++ p.1.1 ++ "\": " ++ jsonDumps p.1.2)) ++ "\x7d"
decreasing_by
  · cases v; rename_i x hx
    have h1 := List.sizeOf_lt_of_mem hx
    simp only [JsonValue.arr.sizeOf_spec]
    omega
  · cases p; rename_i q hq; cases q; rename_i k val
    have h1 := List.sizeOf_lt_of_mem hq
    simp only [JsonValue.obj.sizeOf_spec, Prod.mk.sizeOf_spec] at *
    omega

/-- Stand-in for Python's `str()` on a tool-result value (only reached for
non-dict, non-str data; no claim depends on this string). -/
def pyStr : JsonValue → String
  | .null => "None"
  | .bool b => if b then "True" else "False"
  | .num n => toString n
  | .str s => s
  | v => jsonDumps v

/-- `AgentEngine._format_tool_result`: successful results render their
truthy data (dicts serialized, strings verbatim, otherwise `str`), falsy
or absent data renders a generic success marker, failures surface the
error string behind an `Error: ` prefix. -/
def formatToolResult (result : ToolResult) (toolName : String) : String :=
  if result.success then
    match result.data with
    | some d =>
      if d.truthy then
        match d with
        | .obj f => jsonDumps (.obj f)
        | .str s => s
        | v => pyStr v
      else toolName ++ " executed successfully"
    | none => toolName ++ " executed successfully"
  else "Error: " ++ (match result.error with | some e => e | none => "None")

/-- One pass of the per-call body of `AgentEngine._execute_tool_calls`.
The Python body is a `try` block: `KeyError`s from the field reads,
`TypeError`s from `**arguments` on a non-object, and `TypeError`s from
`Path(...)` on a non-string path are all caught by the blanket
`except Exception` handler, which appends an error tool message under
`tool_call.get("id", "unknown")`; a JSON parse failure is caught by the
inner handler and reported under the already-read id.  Every path appends
exactly one tool message.  (Exception texts for the `KeyError`/`TypeError`
cases stand in for CPython's exact wording; no claim depends on them.) -/
def execOneToolCall (eng : AgentEngine) (s : AgentState) (tc : ToolCallWire) :
    AgentState :=
  match tc.fnName with
  | none =>
    s.addToolMessage "Tool execution failed: \x27name\x27" (tc.id.getD "unknown")
  | some function_name =>
    match tc.fnArguments with
    | none =>
      s.addToolMessage "Tool execution failed: \x27arguments\x27" (tc.id.getD "unknown")
    | some arguments_str =>
      match tc.id with
      | none =>
        s.addToolMessage "Tool execution failed: \x27id\x27" "unknown"
      | some tool_call_id =>
        match eng.jsonLoads arguments_str with
        | .error e =>
          s.addToolMessage
            ("Invalid JSON arguments for " ++ function_name ++ ": " ++ e)
            tool_call_id
        | .ok (.obj arguments) =>
          let result := executeTool eng.tools function_name arguments
          if function_name == "read_file" && result.success then
            match dictGetJ arguments "path" with
            | some (.str p) =>
              (s.addExploredFile p).addToolMessage
                (formatToolResult result function_name) tool_call_id
            | some _ =>
              s.addToolMessage "Tool execution failed: invalid path type"
                tool_call_id
            | none =>
              s.addToolMessage (formatToolResult result function_name) tool_call_id
          else
            s.addToolMessage (formatToolResult result function_name) tool_call_id
        | .ok _ =>
          s.addToolMessage "Tool execution failed: arguments must be a mapping"
            tool_call_id

/-- `AgentEngine._execute_tool_calls`: process the batch in request order;
the final `return True` is the constant `true` in the second component. -/
def execToolCalls (eng : AgentEngine) :
    AgentState → List ToolCallWire → AgentState × Bool
  | s, [] => (s, true)
  | s, tc :: rest => execToolCalls eng (execOneToolCall eng s tc) rest

/-- Outcome of one pass of the engine loop body: either normal completion
with a flag saying whether the body issued `break`, or a raise that
escapes the loop body, carrying the state at that moment. -/
inductive IterOutcome where
  | ok (s : AgentState) (brk : Bool)
  | err (msg : String) (s : AgentState)

/-- The "safety check for max iterations" at the end of the loop body:
when the counter has reached the ceiling, record the stop reason and
`break`. -/
def hardStopCheck (eng : AgentEngine) (s : AgentState) : IterOutcome :=
  if (s.iteration_count : Int) ≥ eng.maxIterations then
    .ok (s.stopExecution (some "max_iterations_reached")) true
  else
    .ok s false

/-- One pass of the `while` body of `AgentEngine.run`: bump the counter,
call the provider on the conversation so far, append the assistant message
(with its tool calls when any), then either execute the batch of tool
calls (leaving `should_continue` untouched) or adopt the provider's
continuation hint, and finally run the max-iterations safety check.  A
provider raise escapes the body. -/
def loopIter (eng : AgentEngine) (s : AgentState) : IterOutcome :=
  let s1 := s.incrementIteration
  match eng.provider s1.iteration_count s1.messages with
  | .error e => .err e s1
  | .ok response =>
    let s2 := s1.addAssistantMessage response.message
      (if response.tool_calls.isEmpty then none else some response.tool_calls)
    if response.hasToolCalls then
      let (s3, success) := execToolCalls eng s2 response.tool_calls
      if success then hardStopCheck eng s3 else .ok s3 true
    else
      hardStopCheck eng { s2 with should_continue := response.should_continue }

/-- Result of running the engine loop to completion: the final state, or a
raise that escaped a loop body together with the state at that moment. -/
inductive LoopResult where
  | done (s : AgentState)
  | failed (msg : String) (s : AgentState)

/-- The `while` loop of `AgentEngine.run`, driven by fuel.  `run` supplies
fuel `(maxIterations - iteration_count).toNat`, which is exact: each pass
increments the counter by one, so the fuel reaches 0 only when the guard
`iteration_count < max_iterations` is already false, and the `| 0 => done`
arm coincides with the `while` exit. -/
def runLoop (eng : AgentEngine) : Nat → AgentState → LoopResult
  | 0, s => .done s
  | fuel + 1, s =>
    if (s.iteration_count : Int) < eng.maxIterations ∧ s.should_continue = true then
      match loopIter eng s with
      | .err e s' => .failed e s'
      | .ok s' true => .done s'
      | .ok s' false => runLoop eng fuel s'
    else
      .done s

/-- `AgentEngine._extract_final_output`: the summary dict assembled from
the final state, with `state.metadata` merged in last. -/
def extractFinalOutput (s : AgentState) : List (String × JsonValue) :=
  let base : List (String × JsonValue) :=
    [("agent_summary", .str (match s.getLastAssistantMessage with
        | some m => m.content
        | none => "No final message")),
     ("iterations_used", .num s.iteration_count),
     ("conversation_length", .num s.messages.length),
     ("exploration_summary", .str s.getExplorationSummary),
     ("files_explored", .arr (s.files_explored.map JsonValue.str))]
  let withTodo :=
    match s.todo_state with
    | some ts => base ++
        [("todo_list", .str ts.todo_list.toMarkdown),
         ("todo_stats", .obj ts.todo_list.getStats)]
    | none => base
  dictUpdateJ withTodo (s.metadata.map (fun p => (p.1, JsonValue.str p.2)))

/-- `AgentResult` from `engine.py`. -/
structure AgentResult where
  success : Bool
  final_output : List (String × JsonValue)
  state : AgentState
  iterations_used : Nat
  error : Option String := none

/-- `AgentEngine.run`.  The Python engine holds its `AgentState` as an
attribute set in the constructor; here the initial state `s0` is passed
explicitly.  The single top-level `except Exception` clause becomes the
`failed` arm. -/
def AgentEngine.run (eng : AgentEngine) (s0 : AgentState) (prompt : String) :
    AgentResult :=
  let s := s0.addUserMessage prompt
  match runLoop eng (eng.maxIterations - (s.iteration_count : Int)).toNat s with
  | .done sf =>
    { success := true, final_output := extractFinalOutput sf, state := sf,
      iterations_used := sf.iteration_count }
  | .failed e sf =>
    { success := false, final_output := [], state := sf,
      iterations_used := sf.iteration_count,
      error := some ("Agent execution failed: " ++ e) }

/-! ## Derived views of the per-call processing

`procContent`, `procExplored` and `procMsg` recapitulate the case analysis
of `execOneToolCall` as functions of the call alone; the lemma
`execOneToolCall_eq` proves they describe it exactly.  Every path of the
per-call body appends one tool message whose correlation id is
`tool_call.get("id", "unknown")` (the successful paths read `tool_call["id"]`,
which agrees with `get` whenever it does not raise). -/

/-- The correlation id under which a call's tool message is filed. -/
def procId (tc : ToolCallWire) : String :=
  tc.id.getD "unknown"

/-- The content of the tool message a call produces. -/
def procContent (eng : AgentEngine) (tc : ToolCallWire) : String :=
  match tc.fnName with
  | none => "Tool execution failed: \x27name\x27"
  | some function_name =>
    match tc.fnArguments with
    | none => "Tool execution failed: \x27arguments\x27"
    | some arguments_str =>
      match tc.id with
      | none => "Tool execution failed: \x27id\x27"
      | some _ =>
        match eng.jsonLoads arguments_str with
        | .error e => "Invalid JSON arguments for " ++ function_name ++ ": " ++ e
        | .ok (.obj arguments) =>
          let result := executeTool eng.tools function_name arguments
          if function_name == "read_file" && result.success then
            match dictGetJ arguments "path" with
            | some (.str _) => formatToolResult result function_name
            | some _ => "Tool execution failed: invalid path type"
            | none => formatToolResult result function_name
          else formatToolResult result function_name
        | .ok _ => "Tool execution failed: arguments must be a mapping"

/-- The path a call records in `files_explored`, when any. -/
def procExplored (eng : AgentEngine) (tc : ToolCallWire) : Option String :=
  match tc.fnName with
  | none => none
  | some function_name =>
    match tc.fnArguments with
    | none => none
    | some arguments_str =>
      match tc.id with
      | none => none
      | some _ =>
        match eng.jsonLoads arguments_str with
        | .error _ => none
        | .ok (.obj arguments) =>
          if function_name == "read_file"
              && (executeTool eng.tools function_name arguments).success then
            match dictGetJ arguments "path" with
            | some (.str p) => some p
            | some _ => none
            | none => none
          else none
        | .ok _ => none

/-- The tool message a call produces. -/
def procMsg (eng : AgentEngine) (tc : ToolCallWire) : Message :=
  { role := "tool", content := procContent eng tc, tool_call_id := some (procId tc) }

/-! ## Conversation-link checkers (for the tool-message correlation
invariant) -/

/-- The ids issued by a message's tool calls (calls lacking an id issue
none). -/
def issuedIds (m : Message) : List String :=
  (m.tool_calls.getD []).filterMap (fun tc => tc.id)

/-- The claim's reading of the correlation invariant: every tool-role
message's `tool_call_id` is an id issued by some earlier assistant
message. -/
def strictToolLinks : List String → List Message → Bool
  | _, [] => true
  | ids, m :: rest =>
    if m.role == "tool" then
      (match m.tool_call_id with
        | some t => ids.contains t
        | none => false) && strictToolLinks ids rest
    else
      strictToolLinks (ids ++ issuedIds m) rest

/-- The invariant the code actually maintains: every tool-role message
carries `tc.id` when the corresponding wire call `tc` of the
immediately-preceding assistant message has one, else the placeholder
`"unknown"`; only tool messages stand between the assistant message and
its tool messages. -/
def lenientToolLinks : List ToolCallWire → List Message → Bool
  | _, [] => true
  | ctx, m :: rest =>
    if m.role == "tool" then
      ctx.any (fun tc => m.tool_call_id == some (procId tc)) &&
        lenientToolLinks ctx rest
    else
      lenientToolLinks
        (if m.role == "assistant" then m.tool_calls.getD [] else []) rest

/-- The link context after scanning a message list (mirrors
`lenientToolLinks`). -/
def ctxAfter : List ToolCallWire → List Message → List ToolCallWire
  | ctx, [] => ctx
  | ctx, m :: rest =>
    if m.role == "tool" then ctxAfter ctx rest
    else ctxAfter (if m.role == "assistant" then m.tool_calls.getD [] else []) rest

/-- The state a `LoopResult` carries (final state, or state at failure). -/
def LoopResult.state : LoopResult → AgentState
  | .done s => s
  | .failed _ s => s

/-- The assistant message the engine appends for a provider response. -/
def assistantWireMsg (r : AgentResponse) : Message :=
  { role := "assistant", content := r.message,
    tool_calls := if r.tool_calls.isEmpty then none else some r.tool_calls }

/-- The state produced by one pass of the loop body just before the
max-iterations safety check, as a function of the provider's response. -/
def bodyState (eng : AgentEngine) (s : AgentState) (r : AgentResponse) : AgentState :=
  if r.tool_calls.isEmpty then
    { s.incrementIteration.addAssistantMessage r.message none with
        should_continue := r.should_continue }
  else
    (execToolCalls eng
      (s.incrementIteration.addAssistantMessage r.message (some r.tool_calls))
      r.tool_calls).1

/-- The numbering invariant `TodoList` maintains: the items carry exactly
the numbers `1, 2, …, len` in order, and `_next_number` is `len + 1`. -/
def TodoInv (l : TodoList) : Prop :=
  l.items.map (fun it => it.number) = List.range' 1 l.items.length ∧
  l.nextNumber = l.items.length + 1

/-! ## Sample providers, tools and engines for concrete evaluations -/

/-- A response with no tool calls that asks to stop. -/
def stopResponse : AgentResponse :=
  { message := "Task completed", tool_calls := [], should_continue := false }

/-- A response with no tool calls that asks to continue. -/
def contResponse : AgentResponse :=
  { message := "Let me continue", tool_calls := [], should_continue := true }

/-- A well-formed tool call with empty-object arguments. -/
def sampleToolCall : ToolCallWire :=
  { id := some "call_1", fnName := some "echo", fnArguments := some "\x7b\x7d" }

/-- A response requesting `sampleToolCall`. -/
def toolResponse : AgentResponse :=
  { message := "using a tool", tool_calls := [sampleToolCall],
    should_continue := true }

/-- A tool call whose wire entry is missing its `id` field. -/
def noIdCall : ToolCallWire :=
  { id := none, fnName := some "mytool", fnArguments := some "\x7b\x7d" }

/-- A response requesting the id-less call. -/
def noIdResponse : AgentResponse :=
  { message := "", tool_calls := [noIdCall], should_continue := true }

/-- A tool call whose arguments do not parse as JSON. -/
def badCall : ToolCallWire :=
  { id := some "c9", fnName := some "t", fnArguments := some "nope" }

/-- A `json.loads` model that rejects everything. -/
def errLoads : String → Except String JsonValue :=
  fun _ => .error "Expecting value"

/-- A `json.loads` model accepting only the empty object. -/
def emptyObjLoads : String → Except String JsonValue :=
  fun s => if s = "\x7b\x7d" then .ok (.obj []) else .error "Expecting value"

/-- A tool whose `execute` always raises. -/
def sampleFailTool : Tool :=
  { name := "boom", execute := fun _ => .error "kaput" }

/-- A tool whose `execute` returns a bare success. -/
def sampleOkTool : Tool :=
  { name := "echo", execute := fun _ => .ok { success := true } }

/-- Engine whose provider immediately stops, `max_iterations = -1`. -/
def negEngine : AgentEngine :=
  { provider := fun _ _ => .ok stopResponse, tools := [], jsonLoads := errLoads,
    maxIterations := -1 }

/-- Engine whose provider immediately stops, `max_iterations = 0`. -/
def zeroEngine : AgentEngine :=
  { provider := fun _ _ => .ok stopResponse, tools := [], jsonLoads := errLoads,
    maxIterations := 0 }

/-- Engine whose provider raises on every call, `max_iterations = 1`. -/
def raiseEngine : AgentEngine :=
  { provider := fun _ _ => .error "boom", tools := [], jsonLoads := errLoads,
    maxIterations := 1 }

/-- Engine whose provider immediately stops, `max_iterations = 3`. -/
def c4Engine : AgentEngine :=
  { provider := fun _ _ => .ok stopResponse, tools := [], jsonLoads := errLoads,
    maxIterations := 3 }

/-- Engine whose provider always wants to continue, `max_iterations = 2`. -/
def contEngine2 : AgentEngine :=
  { provider := fun _ _ => .ok contResponse, tools := [], jsonLoads := errLoads,
    maxIterations := 2 }

/-- Engine whose provider requests one well-formed tool call each pass. -/
def c1Engine : AgentEngine :=
  { provider := fun _ _ => .ok toolResponse, tools := [],
    jsonLoads := emptyObjLoads, maxIterations := 5 }

/-- Engine whose provider requests a tool call lacking an id,
`max_iterations = 1`. -/
def missingIdEngine : AgentEngine :=
  { provider := fun _ _ => .ok noIdResponse, tools := [],
    jsonLoads := emptyObjLoads, maxIterations := 1 }

/-- Engine used for exercising JSON parse failures in a batch. -/
def c7Engine : AgentEngine :=
  { provider := fun _ _ => .ok stopResponse, tools := [], jsonLoads := errLoads,
    maxIterations := 15 }

theorem execOneToolCall_eq (eng : AgentEngine) (s : AgentState) (tc : ToolCallWire) :
    execOneToolCall eng s tc =
      (match procExplored eng tc with
        | some p => s.addExploredFile p
        | none => s).addToolMessage (procContent eng tc) (procId tc) := by
  rcases tc with ⟨id, fn, args⟩
  cases fn with
  | none => cases id <;> rfl
  | some fn =>
    cases args with
    | none => cases id <;> rfl
    | some args =>
      cases id with
      | none => rfl
      | some tid =>
        simp only [execOneToolCall, procContent, procExplored, procId, Option.getD]
        cases hj : eng.jsonLoads args with
        | error e => rfl
        | ok v =>
          cases v <;> try rfl
          rename_i fields
          by_cases hrf :
              (fn == "read_file" && (executeTool eng.tools fn fields).success) = true
          · simp only [hrf, if_true]
            cases hp : dictGetJ fields "path" with
            | none => rfl
            | some pv => cases pv <;> rfl
          · simp only [Bool.not_eq_true] at hrf
            simp only [hrf]
            rfl

/-! Projection lemmas for the state helpers. -/

@[simp] theorem addToolMessage_messages (s : AgentState) (c i : String) :
    (s.addToolMessage c i).messages =
      s.messages ++ [{ role := "tool", content := c, tool_call_id := some i }] := rfl

@[simp] theorem addToolMessage_iteration_count (s : AgentState) (c i : String) :
    (s.addToolMessage c i).iteration_count = s.iteration_count := rfl

@[simp] theorem addToolMessage_should_continue (s : AgentState) (c i : String) :
    (s.addToolMessage c i).should_continue = s.should_continue := rfl

@[simp] theorem addToolMessage_metadata (s : AgentState) (c i : String) :
    (s.addToolMessage c i).metadata = s.metadata := rfl

@[simp] theorem addToolMessage_todo_state (s : AgentState) (c i : String) :
    (s.addToolMessage c i).todo_state = s.todo_state := rfl

@[simp] theorem addExploredFile_messages (s : AgentState) (p : String) :
    (s.addExploredFile p).messages = s.messages := by
  unfold AgentState.addExploredFile; split <;> rfl

@[simp] theorem addExploredFile_iteration_count (s : AgentState) (p : String) :
    (s.addExploredFile p).iteration_count = s.iteration_count := by
  unfold AgentState.addExploredFile; split <;> rfl

@[simp] theorem addExploredFile_should_continue (s : AgentState) (p : String) :
    (s.addExploredFile p).should_continue = s.should_continue := by
  unfold AgentState.addExploredFile; split <;> rfl

@[simp] theorem addExploredFile_metadata (s : AgentState) (p : String) :
    (s.addExploredFile p).metadata = s.metadata := by
  unfold AgentState.addExploredFile; split <;> rfl

@[simp] theorem addExploredFile_todo_state (s : AgentState) (p : String) :
    (s.addExploredFile p).todo_state = s.todo_state := by
  unfold AgentState.addExploredFile; split <;> rfl

/-- Fields of the state produced by one per-call pass. -/
theorem execOneToolCall_fields (eng : AgentEngine) (s : AgentState)
    (tc : ToolCallWire) :
    (execOneToolCall eng s tc).messages = s.messages ++ [procMsg eng tc] ∧
    (execOneToolCall eng s tc).iteration_count = s.iteration_count ∧
    (execOneToolCall eng s tc).should_continue = s.should_continue ∧
    (execOneToolCall eng s tc).metadata = s.metadata ∧
    (execOneToolCall eng s tc).todo_state = s.todo_state := by
  rw [execOneToolCall_eq]
  cases h : procExplored eng tc <;> simp [procMsg]

/-- The batch executor's boolean is the constant `true` (the `return True`
at the end of `_execute_tool_calls`). -/
theorem execToolCalls_snd (eng : AgentEngine) :
    ∀ (calls : List ToolCallWire) (s : AgentState),
      (execToolCalls eng s calls).2 = true := by
  intro calls
  induction calls with
  | nil => intro s; rfl
  | cons tc rest ih => intro s; exact ih _

/-- Fields of the state produced by the batch executor: exactly one tool
message is appended per call, in request order, and the counter, flag,
metadata and todo sub-state are untouched. -/
theorem execToolCalls_fields (eng : AgentEngine) :
    ∀ (calls : List ToolCallWire) (s : AgentState),
      (execToolCalls eng s calls).1.messages =
        s.messages ++ calls.map (procMsg eng) ∧
      (execToolCalls eng s calls).1.iteration_count = s.iteration_count ∧
      (execToolCalls eng s calls).1.should_continue = s.should_continue ∧
      (execToolCalls eng s calls).1.metadata = s.metadata ∧
      (execToolCalls eng s calls).1.todo_state = s.todo_state := by
  intro calls
  induction calls with
  | nil => intro s; simp [execToolCalls]
  | cons tc rest ih =>
    intro s
    obtain ⟨h1, h2, h3, h4, h5⟩ := execOneToolCall_fields eng s tc
    obtain ⟨g1, g2, g3, g4, g5⟩ := ih (execOneToolCall eng s tc)
    refine ⟨?_, ?_, ?_, ?_, ?_⟩ <;>
      simp [execToolCalls, g1, g2, g3, g4, g5, h1, h2, h3, h4, h5]

/-! ## Loop-body characterization -/

@[simp] theorem stopExecution_should_continue (s : AgentState) (reason : Option String) :
    (s.stopExecution reason).should_continue = false := by
  cases reason <;> rfl

@[simp] theorem stopExecution_iteration_count (s : AgentState) (reason : Option String) :
    (s.stopExecution reason).iteration_count = s.iteration_count := by
  cases reason <;> rfl

@[simp] theorem stopExecution_messages (s : AgentState) (reason : Option String) :
    (s.stopExecution reason).messages = s.messages := by
  cases reason <;> rfl

@[simp] theorem stopExecution_todo_state (s : AgentState) (reason : Option String) :
    (s.stopExecution reason).todo_state = s.todo_state := by
  cases reason <;> rfl

@[simp] theorem stopExecution_some_metadata (s : AgentState) (r : String) :
    (s.stopExecution (some r)).metadata = dictSet s.metadata "stop_reason" r := rfl

/-- A provider raise makes the loop body fail with the incremented
counter and the conversation untouched. -/
theorem loopIter_err_spec (eng : AgentEngine) (s : AgentState) (e : String)
    (h : eng.provider (s.iteration_count + 1) s.messages = .error e) :
    loopIter eng s = .err e s.incrementIteration := by
  simp only [loopIter, AgentState.incrementIteration]
  rw [h]

/-- On a provider success the loop body is the safety check applied to
`bodyState` (the `if not success: break` arm is never taken, since the
batch executor returns `True`). -/
theorem loopIter_ok_eq (eng : AgentEngine) (s : AgentState) (r : AgentResponse)
    (h : eng.provider (s.iteration_count + 1) s.messages = .ok r) :
    loopIter eng s = hardStopCheck eng (bodyState eng s r) := by
  simp only [loopIter, bodyState, AgentState.incrementIteration]
  rw [h]
  simp only [AgentResponse.hasToolCalls]
  by_cases hempty : r.tool_calls.isEmpty = true
  · simp [hempty]
  · rw [Bool.not_eq_true] at hempty
    rcases hE : execToolCalls eng
      (({ s with iteration_count := s.iteration_count + 1 } :
          AgentState).addAssistantMessage r.message
        (if r.tool_calls.isEmpty = true then none else some r.tool_calls))
      r.tool_calls with ⟨s3, succ⟩
    have hsucc : succ = true := by
      have h2 := execToolCalls_snd eng r.tool_calls
        (({ s with iteration_count := s.iteration_count + 1 } :
            AgentState).addAssistantMessage r.message
          (if r.tool_calls.isEmpty = true then none else some r.tool_calls))
      rw [hE] at h2; exact h2
    have hE2 : execToolCalls eng
        (({ s with iteration_count := s.iteration_count + 1 } :
            AgentState).addAssistantMessage r.message (some r.tool_calls))
        r.tool_calls = (s3, succ) := by
      rw [← hE]; simp [hempty]
    simp [hempty, hE, hE2, hsucc]

/-- The safety check either records the stop reason and breaks, or leaves
the state alone; the flag is exactly the ceiling test. -/
theorem hardStopCheck_spec (eng : AgentEngine) (t : AgentState) :
    hardStopCheck eng t =
      .ok (if (t.iteration_count : Int) ≥ eng.maxIterations then
             t.stopExecution (some "max_iterations_reached")
           else t)
        (decide ((t.iteration_count : Int) ≥ eng.maxIterations)) := by
  unfold hardStopCheck
  by_cases h : (t.iteration_count : Int) ≥ eng.maxIterations <;> simp [h]

/-- Fields of `bodyState`: the counter advances by one; todo sub-state and
metadata are untouched; `should_continue` is adopted from the response
exactly when the response carries no tool calls; the conversation grows by
the assistant message followed by one tool message per requested call. -/
theorem bodyState_fields (eng : AgentEngine) (s : AgentState) (r : AgentResponse) :
    (bodyState eng s r).iteration_count = s.iteration_count + 1 ∧
    (bodyState eng s r).todo_state = s.todo_state ∧
    (bodyState eng s r).metadata = s.metadata ∧
    (bodyState eng s r).should_continue =
      (if r.tool_calls.isEmpty then r.should_continue else s.should_continue) ∧
    (bodyState eng s r).messages = s.messages ++ [assistantWireMsg r] ++
      (if r.tool_calls.isEmpty then [] else r.tool_calls.map (procMsg eng)) := by
  by_cases hempty : r.tool_calls.isEmpty = true
  · simp [bodyState, hempty, assistantWireMsg, AgentState.addAssistantMessage,
      AgentState.addMessage, AgentState.incrementIteration]
  · rw [Bool.not_eq_true] at hempty
    obtain ⟨f1, f2, f3, f4, f5⟩ := execToolCalls_fields eng r.tool_calls
      (s.incrementIteration.addAssistantMessage r.message (some r.tool_calls))
    simp only [AgentState.addAssistantMessage, AgentState.addMessage,
      AgentState.incrementIteration] at f1 f2 f3 f4 f5
    simp [bodyState, hempty, assistantWireMsg, AgentState.addAssistantMessage,
      AgentState.addMessage, AgentState.incrementIteration, f1, f2, f3, f4, f5]

/-- Combination of `loopIter_ok_eq`, `hardStopCheck_spec` and the counter
field of `bodyState_fields`. -/
theorem loopIter_ok_full (eng : AgentEngine) (s : AgentState) (r : AgentResponse)
    (h : eng.provider (s.iteration_count + 1) s.messages = .ok r) :
    loopIter eng s = .ok
      (if ((s.iteration_count + 1 : Int)) ≥ eng.maxIterations then
        (bodyState eng s r).stopExecution (some "max_iterations_reached")
      else bodyState eng s r)
      (decide ((s.iteration_count + 1 : Int) ≥ eng.maxIterations)) := by
  rw [loopIter_ok_eq eng s r h, hardStopCheck_spec]
  rw [(bodyState_fields eng s r).1]
  push_cast
  rfl

theorem runLoop_zero (eng : AgentEngine) (s : AgentState) :
    runLoop eng 0 s = .done s := rfl

theorem runLoop_succ (eng : AgentEngine) (fuel : Nat) (s : AgentState) :
    runLoop eng (fuel + 1) s =
      if (s.iteration_count : Int) < eng.maxIterations ∧ s.should_continue = true then
        match loopIter eng s with
        | .err e s' => .failed e s'
        | .ok s' true => .done s'
        | .ok s' false => runLoop eng fuel s'
      else .done s := rfl

/-- The loop never pushes the counter past the ceiling (each pass runs
only under the guard `iteration_count < max_iterations`). -/
theorem runLoop_count_le (eng : AgentEngine) :
    ∀ (fuel : Nat) (s : AgentState),
      (s.iteration_count : Int) ≤ eng.maxIterations →
      ((runLoop eng fuel s).state.iteration_count : Int) ≤ eng.maxIterations := by
  intro fuel
  induction fuel with
  | zero => intro s hs; simpa [runLoop_zero, LoopResult.state] using hs
  | succ fuel ih =>
    intro s hs
    rw [runLoop_succ]
    by_cases hg : ((s.iteration_count : Int) < eng.maxIterations ∧
        s.should_continue = true)
    · rw [if_pos hg]
      cases hp : eng.provider (s.iteration_count + 1) s.messages with
      | error e =>
        rw [loopIter_err_spec eng s e hp]
        show (((s.iteration_count + 1 : Nat) : Int)) ≤ eng.maxIterations
        obtain ⟨hg1, hg2⟩ := hg
        push_cast
        omega
      | ok r =>
        rw [loopIter_ok_full eng s r hp]
        by_cases hmax : ((s.iteration_count + 1 : Int) ≥ eng.maxIterations)
        · rw [if_pos hmax, decide_eq_true hmax]
          show ((((bodyState eng s r).stopExecution
              (some "max_iterations_reached")).iteration_count : Int)) ≤
            eng.maxIterations
          rw [stopExecution_iteration_count, (bodyState_fields eng s r).1]
          obtain ⟨hg1, hg2⟩ := hg
          push_cast
          omega
        · rw [if_neg hmax, decide_eq_false hmax]
          exact ih _ (by rw [(bodyState_fields eng s r).1]; push_cast; omega)
    · rw [if_neg hg]
      simpa [LoopResult.state] using hs

/-- With a provider that never raises, the loop always completes. -/
theorem runLoop_no_fail (eng : AgentEngine)
    (hok : ∀ i msgs, ∃ r, eng.provider i msgs = .ok r) :
    ∀ (fuel : Nat) (s : AgentState), ∃ sf, runLoop eng fuel s = .done sf := by
  intro fuel
  induction fuel with
  | zero => intro s; exact ⟨s, rfl⟩
  | succ fuel ih =>
    intro s
    rw [runLoop_succ]
    by_cases hg : ((s.iteration_count : Int) < eng.maxIterations ∧
        s.should_continue = true)
    · rw [if_pos hg]
      obtain ⟨r, hp⟩ := hok (s.iteration_count + 1) s.messages
      rw [loopIter_ok_full eng s r hp]
      by_cases hmax : ((s.iteration_count + 1 : Int) ≥ eng.maxIterations)
      · refine ⟨(bodyState eng s r).stopExecution (some "max_iterations_reached"), ?_⟩
        rw [if_pos hmax, decide_eq_true hmax]
      · obtain ⟨sf, hsf⟩ := ih (bodyState eng s r)
        refine ⟨sf, ?_⟩
        rw [if_neg hmax, decide_eq_false hmax]
        exact hsf
    · exact ⟨s, by rw [if_neg hg]⟩

/-- The loop leaves the todo sub-state alone, and the only metadata write
it can make is the `stop_reason` entry of the hard stop. -/
theorem runLoop_meta_todo (eng : AgentEngine) :
    ∀ (fuel : Nat) (s : AgentState),
      ((runLoop eng fuel s).state.metadata = s.metadata ∨
        (runLoop eng fuel s).state.metadata =
          dictSet s.metadata "stop_reason" "max_iterations_reached") ∧
      (runLoop eng fuel s).state.todo_state = s.todo_state := by
  intro fuel
  induction fuel with
  | zero => intro s; exact ⟨Or.inl rfl, rfl⟩
  | succ fuel ih =>
    intro s
    rw [runLoop_succ]
    by_cases hg : ((s.iteration_count : Int) < eng.maxIterations ∧
        s.should_continue = true)
    · rw [if_pos hg]
      cases hp : eng.provider (s.iteration_count + 1) s.messages with
      | error e =>
        rw [loopIter_err_spec eng s e hp]
        exact ⟨Or.inl rfl, rfl⟩
      | ok r =>
        obtain ⟨_, ft, fm, _, _⟩ := bodyState_fields eng s r
        rw [loopIter_ok_full eng s r hp]
        by_cases hmax : ((s.iteration_count + 1 : Int) ≥ eng.maxIterations)
        · rw [if_pos hmax, decide_eq_true hmax]
          refine ⟨Or.inr ?_, ?_⟩
          · show ((bodyState eng s r).stopExecution
                (some "max_iterations_reached")).metadata =
              dictSet s.metadata "stop_reason" "max_iterations_reached"
            rw [stopExecution_some_metadata, fm]
          · show ((bodyState eng s r).stopExecution
                (some "max_iterations_reached")).todo_state = s.todo_state
            rw [stopExecution_todo_state, ft]
        · rw [if_neg hmax, decide_eq_false hmax]
          obtain ⟨hmeta, htodo⟩ := ih (bodyState eng s r)
          rw [fm] at hmeta
          rw [ft] at htodo
          exact ⟨hmeta, htodo⟩
    · rw [if_neg hg]
      exact ⟨Or.inl rfl, rfl⟩

/-! ## Preservation of the tool-message correlation invariant -/

theorem lenientToolLinks_append :
    ∀ (xs ys : List Message) (ctx : List ToolCallWire),
      lenientToolLinks ctx (xs ++ ys) =
        (lenientToolLinks ctx xs && lenientToolLinks (ctxAfter ctx xs) ys) := by
  intro xs
  induction xs with
  | nil => intro ys ctx; simp [lenientToolLinks, ctxAfter]
  | cons m rest ih =>
    intro ys ctx
    by_cases hrole : (m.role == "tool") = true
    · simp only [List.cons_append, lenientToolLinks, ctxAfter, hrole, if_true,
        List.append_eq, ih, Bool.and_assoc]
    · rw [Bool.not_eq_true] at hrole
      simp only [List.cons_append, lenientToolLinks, ctxAfter, hrole,
        Bool.false_eq_true, if_false, List.append_eq, ih]

theorem lenientToolLinks_procMsgs (eng : AgentEngine) :
    ∀ (calls : List ToolCallWire) (ctx : List ToolCallWire),
      (∀ tc ∈ calls, tc ∈ ctx) →
      lenientToolLinks ctx (calls.map (procMsg eng)) = true := by
  intro calls
  induction calls with
  | nil => intro ctx _; rfl
  | cons tc rest ih =>
    intro ctx hsub
    simp only [List.map_cons, lenientToolLinks, procMsg]
    rw [if_pos (show (("tool" : String) == "tool") = true from rfl)]
    rw [Bool.and_eq_true]
    refine ⟨?_, ?_⟩
    · rw [List.any_eq_true]
      exact ⟨tc, hsub tc (List.mem_cons_self tc rest), by simp⟩
    · exact ih ctx (fun c hc => hsub c (List.mem_cons_of_mem tc hc))

/-- Appending a non-tool message preserves the invariant. -/
theorem lenientToolLinks_append_nontool (msgs : List Message) (m : Message)
    (hrole : (m.role == "tool") = false)
    (h : lenientToolLinks [] msgs = true) :
    lenientToolLinks [] (msgs ++ [m]) = true := by
  rw [lenientToolLinks_append, h, Bool.true_and]
  simp only [lenientToolLinks, hrole, Bool.false_eq_true, if_false]

/-- One successful pass of the loop body preserves the invariant: the
assistant message resets the context to its own calls, and each appended
tool message is correlated to one of them. -/
theorem bodyState_links (eng : AgentEngine) (s : AgentState) (r : AgentResponse)
    (h : lenientToolLinks [] s.messages = true) :
    lenientToolLinks [] (bodyState eng s r).messages = true := by
  obtain ⟨_, _, _, _, fmsg⟩ := bodyState_fields eng s r
  rw [fmsg, List.append_assoc, lenientToolLinks_append, h, Bool.true_and]
  simp only [List.singleton_append, lenientToolLinks, assistantWireMsg]
  by_cases hempty : r.tool_calls.isEmpty = true
  · simp [hempty, lenientToolLinks]
  · rw [Bool.not_eq_true] at hempty
    simp only [hempty, Bool.false_eq_true, if_false, show
      (("assistant" == "tool") = false) from rfl, show
      (("assistant" == "assistant") = true) from rfl, if_true, Option.getD_some]
    exact lenientToolLinks_procMsgs eng r.tool_calls r.tool_calls (fun _ hc => hc)

/-- The loop preserves the correlation invariant. -/
theorem runLoop_links (eng : AgentEngine) :
    ∀ (fuel : Nat) (s : AgentState),
      lenientToolLinks [] s.messages = true →
      lenientToolLinks [] ((runLoop eng fuel s).state.messages) = true := by
  intro fuel
  induction fuel with
  | zero => intro s h; exact h
  | succ fuel ih =>
    intro s h
    rw [runLoop_succ]
    by_cases hg : ((s.iteration_count : Int) < eng.maxIterations ∧
        s.should_continue = true)
    · rw [if_pos hg]
      cases hp : eng.provider (s.iteration_count + 1) s.messages with
      | error e =>
        rw [loopIter_err_spec eng s e hp]
        exact h
      | ok r =>
        rw [loopIter_ok_full eng s r hp]
        by_cases hmax : ((s.iteration_count + 1 : Int) ≥ eng.maxIterations)
        · rw [if_pos hmax, decide_eq_true hmax]
          show lenientToolLinks [] ((bodyState eng s r).stopExecution
            (some "max_iterations_reached")).messages = true
          rw [stopExecution_messages]
          exact bodyState_links eng s r h
        · rw [if_neg hmax, decide_eq_false hmax]
          exact ih (bodyState eng s r) (bodyState_links eng s r h)
    · rw [if_neg hg]
      exact h

/-! ## Run-level helpers -/

theorem run_cases (eng : AgentEngine) (s0 : AgentState) (prompt : String) :
    eng.run s0 prompt =
      (match runLoop eng
          (eng.maxIterations - ((s0.addUserMessage prompt).iteration_count : Int)).toNat
          (s0.addUserMessage prompt) with
        | .done sf =>
          { success := true, final_output := extractFinalOutput sf, state := sf,
            iterations_used := sf.iteration_count }
        | .failed e sf =>
          { success := false, final_output := [], state := sf,
            iterations_used := sf.iteration_count,
            error := some ("Agent execution failed: " ++ e) }) := rfl

/-- On both exits, `iterations_used` is the final state's counter. -/
theorem run_iterations_state (eng : AgentEngine) (s0 : AgentState) (prompt : String) :
    (eng.run s0 prompt).iterations_used = (eng.run s0 prompt).state.iteration_count := by
  rw [run_cases]
  cases runLoop eng
      (eng.maxIterations - ((s0.addUserMessage prompt).iteration_count : Int)).toNat
      (s0.addUserMessage prompt) <;> rfl

/-- If a run that starts below the ceiling with empty metadata ends (via a
non-raising provider) with the counter at the ceiling, the pass that got
there recorded the hard stop: the stop reason is in metadata and the
continuation flag is cleared. -/
theorem runLoop_maxstop (eng : AgentEngine)
    (hok : ∀ i msgs, ∃ r, eng.provider i msgs = .ok r) :
    ∀ (fuel : Nat) (s sf : AgentState),
      s.metadata = [] → (s.iteration_count : Int) < eng.maxIterations →
      runLoop eng fuel s = .done sf →
      (sf.iteration_count : Int) = eng.maxIterations →
      sf.metadata = [("stop_reason", "max_iterations_reached")] ∧
      sf.should_continue = false := by
  intro fuel
  induction fuel with
  | zero =>
    intro s sf hm hlt hrun heq
    cases hrun
    omega
  | succ fuel ih =>
    intro s sf hm hlt hrun heq
    rw [runLoop_succ] at hrun
    by_cases hg : ((s.iteration_count : Int) < eng.maxIterations ∧
        s.should_continue = true)
    · rw [if_pos hg] at hrun
      obtain ⟨r, hp⟩ := hok (s.iteration_count + 1) s.messages
      rw [loopIter_ok_full eng s r hp] at hrun
      obtain ⟨fc, ft, fm, _, _⟩ := bodyState_fields eng s r
      by_cases hmax : ((s.iteration_count + 1 : Int) ≥ eng.maxIterations)
      · rw [if_pos hmax, decide_eq_true hmax] at hrun
        have h2 : LoopResult.done ((bodyState eng s r).stopExecution
            (some "max_iterations_reached")) = .done sf := hrun
        cases h2
        refine ⟨?_, by rw [stopExecution_should_continue]⟩
        rw [stopExecution_some_metadata, fm, hm]
        rfl
      · rw [if_neg hmax, decide_eq_false hmax] at hrun
        have h2 : runLoop eng fuel (bodyState eng s r) = .done sf := hrun
        refine ih (bodyState eng s r) sf (by rw [fm, hm]) ?_ h2 heq
        rw [fc]
        push_cast
        omega
    · rw [if_neg hg] at hrun
      cases hrun
      omega

/-- `final_output` carries the rendered todo list under `todo_list` when
the todo sub-state exists and the metadata is one the engine can have
produced from an empty starting bag. -/
theorem extractFinalOutput_todo (sf : AgentState) (ts : TodoState)
    (htodo : sf.todo_state = some ts)
    (hmeta : sf.metadata = [] ∨
      sf.metadata = [("stop_reason", "max_iterations_reached")]) :
    dictGetJ (extractFinalOutput sf) "todo_list" =
      some (.str ts.todo_list.toMarkdown) := by
  unfold extractFinalOutput
  rw [htodo]
  rcases hmeta with hm | hm <;> rw [hm] <;> rfl

/-- `final_output` surfaces the recorded stop reason. -/
theorem extractFinalOutput_stop (sf : AgentState)
    (hmeta : sf.metadata = [("stop_reason", "max_iterations_reached")]) :
    dictGetJ (extractFinalOutput sf) "stop_reason" =
      some (.str "max_iterations_reached") := by
  unfold extractFinalOutput
  rw [hmeta]
  cases sf.todo_state <;> rfl

/-! ## Todo-list invariants -/

/-- Editing mutates in place: the sequence of item numbers is untouched. -/
theorem editFirst_numbers :
    ∀ (items : List TodoItem) (n : Nat) (st : Option Bool) (tx : Option String),
      (editFirst items n st tx).1.map (fun it => it.number) =
        items.map (fun it => it.number) := by
  intro items
  induction items with
  | nil => intro n st tx; rfl
  | cons it rest ih =>
    intro n st tx
    by_cases hn : it.number = n
    · simp [editFirst, hn]
    · simp [editFirst, hn, ih]

theorem todoInv_empty : TodoInv {} := ⟨rfl, rfl⟩

/-- The first component of `edit` is the list with the (possibly) mutated
items and the untouched counter. -/
theorem edit_fst (l : TodoList) (n : Nat) (st : Option Bool) (tx : Option String) :
    (l.edit n st tx).1 = { l with items := (editFirst l.items n st tx).1 } := rfl

theorem todoInv_step (l : TodoList) (op : TodoOp) (h : TodoInv l) :
    TodoInv (TodoOp.apply l op) := by
  obtain ⟨hnum, hnext⟩ := h
  cases op with
  | add t =>
    refine ⟨?_, ?_⟩
    · show (l.items ++ [({ number := l.nextNumber, text := t } : TodoItem)]).map
          (fun it => it.number) =
        List.range' 1 (l.items ++
          [({ number := l.nextNumber, text := t } : TodoItem)]).length
      rw [List.map_append, hnum, hnext]
      simp [List.range'_1_concat]
      omega
    · show l.nextNumber + 1 =
        (l.items ++ [({ number := l.nextNumber, text := t } : TodoItem)]).length + 1
      simp [hnext]
  | edit n st tx =>
    have hmap := editFirst_numbers l.items n st tx
    have hlen : (editFirst l.items n st tx).1.length = l.items.length := by
      have h2 := congrArg List.length hmap
      simpa using h2
    refine ⟨?_, ?_⟩
    · show ((l.edit n st tx).1.items).map (fun it => it.number) =
        List.range' 1 ((l.edit n st tx).1.items).length
      rw [edit_fst]
      show ((editFirst l.items n st tx).1).map (fun it => it.number) =
        List.range' 1 ((editFirst l.items n st tx).1).length
      rw [hmap, hnum, hlen]
    · show (l.edit n st tx).1.nextNumber = ((l.edit n st tx).1.items).length + 1
      rw [edit_fst]
      show l.nextNumber = ((editFirst l.items n st tx).1).length + 1
      rw [hnext, hlen]
  | clear => exact ⟨rfl, rfl⟩

theorem todoInv_foldl :
    ∀ (ops : List TodoOp) (l : TodoList), TodoInv l →
      TodoInv (ops.foldl TodoOp.apply l) := by
  intro ops
  induction ops with
  | nil => intro l h; exact h
  | cons op rest ih => intro l h; exact ih _ (todoInv_step l op h)

theorem todoInv_applyOps (ops : List TodoOp) : TodoInv (applyOps ops) :=
  todoInv_foldl ops {} todoInv_empty

/-- C8: over any sequence of `add`/`edit`/`clear` operations, the item
numbers are exactly `1, 2, …, len` in order (so they are assigned strictly
increasing starting at 1 and are unique), `_next_number` is `len + 1`,
`edit` never renumbers, `clear` empties the list, and the first `add`
after a `clear` is assigned number 1 again. -/
theorem c8_todo_numbering (ops : List TodoOp) (n : Nat) (st : Option Bool)
    (tx : Option String) (t : String) :
    (applyOps ops).items.map (fun it => it.number) =
      List.range' 1 (applyOps ops).items.length ∧
    (applyOps ops).nextNumber = (applyOps ops).items.length + 1 ∧
    List.Pairwise (· < ·) ((applyOps ops).items.map (fun it => it.number)) ∧
    ((applyOps ops).items.map (fun it => it.number)).Nodup ∧
    ((applyOps ops).edit n st tx).1.items.map (fun it => it.number) =
      (applyOps ops).items.map (fun it => it.number) ∧
    (applyOps (ops ++ [TodoOp.clear])).items = [] ∧
    (applyOps (ops ++ [TodoOp.clear, TodoOp.add t])).items.map
      (fun it => it.number) = [1] := by
  obtain ⟨hnum, hnext⟩ := todoInv_applyOps ops
  refine ⟨hnum, hnext, ?_, ?_, ?_, ?_, ?_⟩
  · rw [hnum]; exact List.pairwise_lt_range' 1 (applyOps ops).items.length
  · rw [hnum]; exact List.nodup_range' 1 (applyOps ops).items.length
  · simpa [TodoList.edit] using editFirst_numbers (applyOps ops).items n st tx
  · simp [applyOps, List.foldl_append, TodoOp.apply, TodoList.clear]
  · simp [applyOps, List.foldl_append, TodoOp.apply, TodoList.clear, TodoList.add]

/-! ## Todo markdown rendering -/

/-- The accumulator of `String.intercalate.go` is a prefix of its result. -/
theorem intercalate_go_prefix :
    ∀ (l : List String) (acc sep : String),
      ∃ t, String.intercalate.go acc sep l = acc ++ t := by
  intro l
  induction l with
  | nil => intro acc sep; exact ⟨"", by simp [String.intercalate.go]⟩
  | cons a as ih =>
    intro acc sep
    obtain ⟨t, ht⟩ := ih (acc ++ sep ++ a) sep
    refine ⟨sep ++ a ++ t, ?_⟩
    show String.intercalate.go (acc ++ sep ++ a) sep as = acc ++ (sep ++ a ++ t)
    rw [ht]
    simp [String.append_assoc]

/-- The rendered todo list is never the empty string: the empty list
renders as `"No todos yet."` and a non-empty list's rendering starts with
its first item's line `- … `. -/
theorem todo_markdown_ne_empty (l : TodoList) : l.toMarkdown ≠ "" := by
  unfold TodoList.toMarkdown
  cases hitems : l.items with
  | nil => simp
  | cons it rest =>
    simp only [List.isEmpty_cons, Bool.false_eq_true, if_false, List.map_cons]
    show String.intercalate.go (TodoItem.toMarkdown it) "\n"
        (rest.map TodoItem.toMarkdown) ≠ ""
    obtain ⟨t, ht⟩ := intercalate_go_prefix (rest.map TodoItem.toMarkdown)
      (TodoItem.toMarkdown it) "\n"
    rw [ht]
    intro hcontra
    have hlen := congrArg String.length hcontra
    simp only [TodoItem.toMarkdown, String.length_append] at hlen
    simp at hlen
    exact absurd hlen.1.1.1.1.1.1 (by decide)

/-- C9: a non-empty todo list renders as its items' markdown lines joined
by newlines, each line being `- [ ] N. text` or `- [x] N. text`, and the
two-item instance renders to the exact expected string. -/
theorem c9_todo_markdown (l : TodoList) (h : l.items ≠ []) :
    l.toMarkdown = String.intercalate "\n" (l.items.map TodoItem.toMarkdown) ∧
    (∀ it : TodoItem, TodoItem.toMarkdown it =
      "- " ++ (if it.completed then "[x]" else "[ ]") ++ " " ++
        toString it.number ++ ". " ++ it.text) ∧
    TodoList.toMarkdown
        { items := [{ number := 1, text := "a" },
                    { number := 2, text := "b", completed := true }],
          nextNumber := 3 } =
      "- [ ] 1. a\n- [x] 2. b" := by
  refine ⟨?_, fun it => rfl, by rfl⟩
  have hne : l.items.isEmpty = false := by
    cases hitems : l.items with
    | nil => exact absurd hitems h
    | cons a as => rfl
  unfold TodoList.toMarkdown
  rw [hne]
  rfl

/-- C9 witness: the theorem applied to the concrete two-item list. -/
theorem c9_todo_markdown_witness :
    (({ items := [{ number := 1, text := "a" },
                  { number := 2, text := "b", completed := true }],
        nextNumber := 3 } : TodoList).items ≠ []) ∧
    (({ items := [{ number := 1, text := "a" },
                  { number := 2, text := "b", completed := true }],
        nextNumber := 3 } : TodoList).toMarkdown =
      String.intercalate "\n"
        ((({ items := [{ number := 1, text := "a" },
                       { number := 2, text := "b", completed := true }],
             nextNumber := 3 } : TodoList).items).map TodoItem.toMarkdown)) :=
  ⟨by decide,
   (c9_todo_markdown
     { items := [{ number := 1, text := "a" },
                 { number := 2, text := "b", completed := true }],
       nextNumber := 3 } (by decide)).1⟩

/-! ## The claims -/

/-- C2: `ToolRegistry.execute_tool` is total (it returns a `ToolResult` by
construction, never raising): an unregistered name yields a failed result
whose error lists the registered tool names in registration order; a raise
from the underlying tool's `execute` is caught and wrapped into a failed
result carrying the exception's message; and a returned `ToolResult` is
passed through unchanged. -/
theorem c2_execute_tool_total (reg : ToolRegistry) (name : String)
    (kwargs : List (String × JsonValue)) :
    (getTool reg name = none →
      executeTool reg name kwargs =
        { success := false, data := none,
          error := some ("Tool \x27" ++ name ++ "\x27 not found. Available tools: "
            ++ String.intercalate ", " (getToolNames reg)) }) ∧
    (∀ t : Tool, getTool reg name = some t →
      (∀ e : String, t.execute kwargs = .error e →
        executeTool reg name kwargs =
          { success := false, data := none,
            error := some ("Tool \x27" ++ name ++ "\x27 execution failed: " ++ e) }) ∧
      (∀ r : ToolResult, t.execute kwargs = .ok r →
        executeTool reg name kwargs = r)) := by
  refine ⟨?_, ?_⟩
  · intro h
    simp [executeTool, h]
  · intro t ht
    refine ⟨?_, ?_⟩
    · intro e he
      simp [executeTool, ht, he]
    · intro r hr
      simp [executeTool, ht, hr]

/-- C2 witness: a one-tool registry exercising the unknown-name path, the
raising path and the pass-through path. -/
theorem c2_execute_tool_total_witness :
    (getTool [sampleFailTool] "nope" = none ∧
      executeTool [sampleFailTool] "nope" [] =
        { success := false, data := none,
          error := some "Tool \x27nope\x27 not found. Available tools: boom" }) ∧
    (getTool [sampleFailTool] "boom" = some sampleFailTool ∧
      executeTool [sampleFailTool] "boom" [] =
        { success := false, data := none,
          error := some "Tool \x27boom\x27 execution failed: kaput" }) ∧
    (getTool [sampleOkTool] "echo" = some sampleOkTool ∧
      executeTool [sampleOkTool] "echo" [] = { success := true }) :=
  ⟨⟨rfl, (c2_execute_tool_total [sampleFailTool] "nope" []).1 rfl⟩,
   ⟨rfl, ((c2_execute_tool_total [sampleFailTool] "boom" []).2 sampleFailTool
      rfl).1 "kaput" rfl⟩,
   ⟨rfl, ((c2_execute_tool_total [sampleOkTool] "echo" []).2 sampleOkTool
      rfl).2 { success := true } rfl⟩⟩

/-- C1: on any pass whose provider response carries at least one tool
call, the loop body executes the calls (appending the assistant message
and exactly one tool-role message per call), leaves `should_continue`
untouched (so still `true`), and does not exit the loop — the `break` flag
is raised exactly when the `max_iterations` hard stop fires on that same
pass, regardless of the response's own `should_continue` hint. -/
theorem c1_tool_calls_force_continuation (eng : AgentEngine) (s : AgentState)
    (r : AgentResponse)
    (hguard : (s.iteration_count : Int) < eng.maxIterations ∧
      s.should_continue = true)
    (hresp : eng.provider (s.iteration_count + 1) s.messages = .ok r)
    (htc : r.tool_calls ≠ []) :
    ∃ s', loopIter eng s = .ok s'
        (decide ((s.iteration_count + 1 : Int) ≥ eng.maxIterations)) ∧
      s'.messages = s.messages ++ [assistantWireMsg r] ++
        r.tool_calls.map (procMsg eng) ∧
      (∀ m ∈ r.tool_calls.map (procMsg eng), m.role = "tool") ∧
      ((s.iteration_count + 1 : Int) < eng.maxIterations →
        s'.should_continue = true ∧
        decide ((s.iteration_count + 1 : Int) ≥ eng.maxIterations) = false) := by
  have hempty : r.tool_calls.isEmpty = false := by
    cases htc' : r.tool_calls with
    | nil => exact absurd htc' htc
    | cons a as => rfl
  obtain ⟨fc, ft, fm, fsc, fmsg⟩ := bodyState_fields eng s r
  rw [loopIter_ok_full eng s r hresp]
  refine ⟨_, rfl, ?_, ?_, ?_⟩
  · by_cases hmax : ((s.iteration_count + 1 : Int) ≥ eng.maxIterations)
    · simp [hmax, stopExecution_messages, fmsg, hempty]
    · simp [hmax, fmsg, hempty]
  · intro m hm
    obtain ⟨tc, _, rfl⟩ := List.mem_map.mp hm
    rfl
  · intro hlt
    have hmax : ¬((s.iteration_count + 1 : Int) ≥ eng.maxIterations) := by omega
    refine ⟨?_, decide_eq_false hmax⟩
    rw [if_neg hmax, fsc, hempty]
    simpa using hguard.2

/-- C1 witness: a single-tool-call response on a fresh state, five passes
of budget. -/
theorem c1_tool_calls_force_continuation_witness :
    (((({} : AgentState).iteration_count : Int) < c1Engine.maxIterations ∧
        ({} : AgentState).should_continue = true) ∧
      c1Engine.provider (({} : AgentState).iteration_count + 1)
        ({} : AgentState).messages = .ok toolResponse ∧
      toolResponse.tool_calls ≠ []) ∧
    (∃ s', loopIter c1Engine {} = .ok s'
        (decide (((({} : AgentState).iteration_count + 1 : Int))
          ≥ c1Engine.maxIterations)) ∧
      s'.messages = ({} : AgentState).messages ++ [assistantWireMsg toolResponse] ++
        toolResponse.tool_calls.map (procMsg c1Engine) ∧
      (∀ m ∈ toolResponse.tool_calls.map (procMsg c1Engine), m.role = "tool") ∧
      (((({} : AgentState).iteration_count + 1 : Int)) < c1Engine.maxIterations →
        s'.should_continue = true ∧
        decide (((({} : AgentState).iteration_count + 1 : Int))
          ≥ c1Engine.maxIterations) = false)) :=
  ⟨⟨⟨by decide, rfl⟩, rfl, by decide⟩,
   c1_tool_calls_force_continuation c1Engine {} toolResponse
     ⟨by decide, rfl⟩ rfl (by decide)⟩

/-- C3: `run` is total by construction (it returns an `AgentResult`, the
top-level `except` arm turning any raise into a result); on both exits
`iterations_used` is the final state's counter (so, on failure, the
counter at the time of failure, with the partial state attached); failure
carries an error message prefixed `Agent execution failed: ` and an empty
final output, success carries no error; and with a provider that never
raises the run always succeeds. -/
theorem c3_run_never_raises (eng : AgentEngine) (s0 : AgentState)
    (prompt : String) :
    (eng.run s0 prompt).iterations_used = (eng.run s0 prompt).state.iteration_count ∧
    ((eng.run s0 prompt).success = true → (eng.run s0 prompt).error = none) ∧
    ((eng.run s0 prompt).success = false →
      ∃ msg, (eng.run s0 prompt).error =
          some ("Agent execution failed: " ++ msg) ∧
        (eng.run s0 prompt).final_output = []) ∧
    ((∀ i msgs, ∃ r, eng.provider i msgs = .ok r) →
      (eng.run s0 prompt).success = true) := by
  rw [run_cases]
  cases hr : runLoop eng
      (eng.maxIterations - ((s0.addUserMessage prompt).iteration_count : Int)).toNat
      (s0.addUserMessage prompt) with
  | done sf =>
    refine ⟨rfl, fun _ => rfl, fun h => ?_, fun _ => rfl⟩
    exact absurd (show true = false from h) (by decide)
  | failed e sf =>
    refine ⟨rfl, fun h => ?_, fun _ => ⟨e, rfl, rfl⟩, fun hok => ?_⟩
    · exact absurd (show false = true from h) (by decide)
    · obtain ⟨sf', hsf'⟩ := runLoop_no_fail eng hok
        (eng.maxIterations - ((s0.addUserMessage prompt).iteration_count : Int)).toNat
        (s0.addUserMessage prompt)
      rw [hr] at hsf'
      exact LoopResult.noConfusion hsf'

/-- C3 witness: the raising engine fails cleanly, the stopping engine
succeeds. -/
theorem c3_run_never_raises_witness :
    ((raiseEngine.run {} "p").iterations_used =
        (raiseEngine.run {} "p").state.iteration_count ∧
      (∃ msg, (raiseEngine.run {} "p").error =
          some ("Agent execution failed: " ++ msg) ∧
        (raiseEngine.run {} "p").final_output = [])) ∧
    (c4Engine.run {} "p").success = true :=
  ⟨⟨(c3_run_never_raises raiseEngine {} "p").1,
    (c3_run_never_raises raiseEngine {} "p").2.2.1 rfl⟩,
   (c3_run_never_raises c4Engine {} "p").2.2.2
     (fun _ _ => ⟨stopResponse, rfl⟩)⟩

/-- C4 counterexample: with `max_iterations = -1` (a value the constructor
accepts) the loop never runs, `iterations_used` is 0, and
`iterations_used <= max_iterations` is false. -/
theorem c4_counterexample :
    ¬ ((((negEngine.run {} "go").iterations_used : Int)) ≤
        negEngine.maxIterations) := by
  decide

/-- C4 (amended to non-negative iteration budgets): for every run from a
fresh state with `max_iterations ≥ 0`, the result's `iterations_used`
equals the final state's `iteration_count` and never exceeds
`max_iterations`. -/
theorem c4_iterations_bound (eng : AgentEngine) (prompt : String)
    (hmax : 0 ≤ eng.maxIterations) :
    (eng.run {} prompt).iterations_used = (eng.run {} prompt).state.iteration_count ∧
    (((eng.run {} prompt).iterations_used : Int)) ≤ eng.maxIterations := by
  refine ⟨run_iterations_state eng {} prompt, ?_⟩
  have h := runLoop_count_le eng
    (eng.maxIterations -
      (((({} : AgentState)).addUserMessage prompt).iteration_count : Int)).toNat
    ((({} : AgentState)).addUserMessage prompt)
    (by show ((0 : Nat) : Int) ≤ eng.maxIterations; simpa using hmax)
  rw [run_cases]
  cases hr : runLoop eng
      (eng.maxIterations -
        (((({} : AgentState)).addUserMessage prompt).iteration_count : Int)).toNat
      ((({} : AgentState)).addUserMessage prompt) with
  | done sf => rw [hr] at h; exact h
  | failed e sf => rw [hr] at h; exact h

/-- C4 witness: three passes of budget, provider stops at once. -/
theorem c4_iterations_bound_witness :
    ((0 : Int) ≤ c4Engine.maxIterations) ∧
    ((c4Engine.run {} "p").iterations_used =
        (c4Engine.run {} "p").state.iteration_count ∧
      (((c4Engine.run {} "p").iterations_used : Int)) ≤ c4Engine.maxIterations) :=
  ⟨by decide, c4_iterations_bound c4Engine "p" (by decide)⟩

/-- C5 counterexample: two runs in which the counter reaches
`max_iterations` yet the claimed conclusion fails.  With
`max_iterations = 0` the loop never runs, so no stop reason is recorded
and `should_continue` stays `true`; with a provider that raises on the
pass that brings the counter to `max_iterations = 1`, the run ends with
`success = false`. -/
theorem c5_counterexample :
    ((((zeroEngine.run {} "p").iterations_used : Int) =
        zeroEngine.maxIterations) ∧
      dictGet (zeroEngine.run {} "p").state.metadata "stop_reason" = none ∧
      (zeroEngine.run {} "p").state.should_continue = true) ∧
    ((((raiseEngine.run {} "p").iterations_used : Int) =
        raiseEngine.maxIterations) ∧
      (raiseEngine.run {} "p").success = false) :=
  ⟨⟨by decide, rfl, rfl⟩, ⟨by decide, rfl⟩⟩

/-- C5 (amended to positive budgets and non-raising providers): for every
run from a fresh state with `max_iterations ≥ 1` and a provider that
returns normally on every call, if the counter reaches `max_iterations`
then the run succeeds, the final state has `should_continue = false`, and
the stop reason `max_iterations_reached` is recorded in the state's
metadata and surfaced in the final output — regardless of the provider's
continuation hints or tool calls. -/
theorem c5_max_iterations_stop (eng : AgentEngine) (prompt : String)
    (hpos : 1 ≤ eng.maxIterations)
    (hok : ∀ i msgs, ∃ r, eng.provider i msgs = .ok r)
    (hreach : (((eng.run {} prompt).iterations_used : Int)) = eng.maxIterations) :
    (eng.run {} prompt).success = true ∧
    (eng.run {} prompt).state.should_continue = false ∧
    dictGet (eng.run {} prompt).state.metadata "stop_reason" =
      some "max_iterations_reached" ∧
    dictGetJ (eng.run {} prompt).final_output "stop_reason" =
      some (.str "max_iterations_reached") := by
  obtain ⟨sf, hr⟩ := runLoop_no_fail eng hok
    (eng.maxIterations -
      (((({} : AgentState)).addUserMessage prompt).iteration_count : Int)).toNat
    ((({} : AgentState)).addUserMessage prompt)
  rw [run_cases] at hreach ⊢
  rw [hr] at hreach ⊢
  have hreach' : ((sf.iteration_count : Int)) = eng.maxIterations := hreach
  have hlt : (((({} : AgentState)).addUserMessage prompt).iteration_count : Int) <
      eng.maxIterations := by
    show ((0 : Nat) : Int) < eng.maxIterations
    push_cast
    omega
  obtain ⟨hmeta, hsc⟩ := runLoop_maxstop eng hok
    (eng.maxIterations -
      (((({} : AgentState)).addUserMessage prompt).iteration_count : Int)).toNat
    ((({} : AgentState)).addUserMessage prompt) sf rfl hlt hr hreach'
  refine ⟨rfl, hsc, ?_, ?_⟩
  · show dictGet sf.metadata "stop_reason" = some "max_iterations_reached"
    rw [hmeta]
    rfl
  · show dictGetJ (extractFinalOutput sf) "stop_reason" =
      some (.str "max_iterations_reached")
    exact extractFinalOutput_stop sf hmeta

/-- C5 witness: a provider that always continues with two passes of
budget runs out of iterations and records the stop reason. -/
theorem c5_max_iterations_stop_witness :
    ((1 : Int) ≤ contEngine2.maxIterations ∧
      (((contEngine2.run {} "p").iterations_used : Int)) =
        contEngine2.maxIterations) ∧
    ((contEngine2.run {} "p").success = true ∧
      (contEngine2.run {} "p").state.should_continue = false ∧
      dictGet (contEngine2.run {} "p").state.metadata "stop_reason" =
        some "max_iterations_reached" ∧
      dictGetJ (contEngine2.run {} "p").final_output "stop_reason" =
        some (.str "max_iterations_reached")) :=
  ⟨⟨by decide, by decide⟩,
   c5_max_iterations_stop contEngine2 "p" (by decide)
     (fun _ _ => ⟨contResponse, rfl⟩) (by decide)⟩

/-- C6 counterexample: a reachable history violating the claimed
invariant as stated.  The provider requests a tool call whose wire entry
has no `id`; the engine answers it with a tool message filed under the
placeholder `"unknown"`, which matches no id issued by any assistant
message (none was issued at all). -/
theorem c6_counterexample :
    strictToolLinks [] ((missingIdEngine.run {} "p").state.messages) = false := by
  decide

/-- C6 (amended to account for the placeholder id): in every conversation
history reachable by `run` from a state whose history already satisfies
the invariant, every tool-role message carries the id of a corresponding
wire call of the immediately-preceding assistant message when that call
has one, and the placeholder `"unknown"` otherwise (with only tool
messages standing between the assistant message and its answers). -/
theorem c6_tool_message_links (eng : AgentEngine) (prompt : String)
    (s0 : AgentState) (h0 : lenientToolLinks [] s0.messages = true) :
    lenientToolLinks [] ((eng.run s0 prompt).state.messages) = true := by
  have h1 : lenientToolLinks [] ((s0.addUserMessage prompt).messages) = true := by
    show lenientToolLinks []
      (s0.messages ++ [{ role := "user", content := prompt }]) = true
    exact lenientToolLinks_append_nontool s0.messages _ rfl h0
  have h2 := runLoop_links eng
    (eng.maxIterations - ((s0.addUserMessage prompt).iteration_count : Int)).toNat
    (s0.addUserMessage prompt) h1
  rw [run_cases]
  cases hr : runLoop eng
      (eng.maxIterations - ((s0.addUserMessage prompt).iteration_count : Int)).toNat
      (s0.addUserMessage prompt) with
  | done sf => rw [hr] at h2; exact h2
  | failed e sf => rw [hr] at h2; exact h2

/-- C6 witness: the amended invariant holds on the very run that refutes
the strict reading. -/
theorem c6_tool_message_links_witness :
    (lenientToolLinks [] (({} : AgentState).messages) = true) ∧
    lenientToolLinks [] ((missingIdEngine.run {} "p").state.messages) = true :=
  ⟨rfl, c6_tool_message_links missingIdEngine "p" {} rfl⟩

/-- C7: the batch executor processes calls independently in request
order — the conversation grows by exactly one tool message per call, each
computed from that call alone — and always reports `True` to the loop; a
JSON parse failure of one call's arguments yields a tool message naming
the offending tool and the parse error, filed under the call's id, while
the remaining calls are still processed. -/
theorem c7_batch_isolation (eng : AgentEngine) (s : AgentState)
    (calls : List ToolCallWire) :
    (execToolCalls eng s calls).2 = true ∧
    (execToolCalls eng s calls).1.messages =
      s.messages ++ calls.map (procMsg eng) ∧
    (∀ tc : ToolCallWire, ∀ fn argStr tid e : String,
      tc.fnName = some fn → tc.fnArguments = some argStr → tc.id = some tid →
      eng.jsonLoads argStr = .error e →
      procMsg eng tc =
        { role := "tool",
          content := "Invalid JSON arguments for " ++ fn ++ ": " ++ e,
          tool_call_id := some tid }) := by
  refine ⟨execToolCalls_snd eng calls s, (execToolCalls_fields eng calls s).1, ?_⟩
  intro tc fn argStr tid e h1 h2 h3 h4
  simp [procMsg, procContent, procId, h1, h2, h3, h4]

/-- C7 witness: a one-call batch whose arguments fail to parse. -/
theorem c7_batch_isolation_witness :
    ((execToolCalls c7Engine {} [badCall]).2 = true ∧
      (execToolCalls c7Engine {} [badCall]).1.messages =
        ({} : AgentState).messages ++ [badCall].map (procMsg c7Engine) ∧
      procMsg c7Engine badCall =
        { role := "tool",
          content := "Invalid JSON arguments for t: Expecting value",
          tool_call_id := some "c9" }) :=
  ⟨(c7_batch_isolation c7Engine {} [badCall]).1,
   (c7_batch_isolation c7Engine {} [badCall]).2.1,
   (c7_batch_isolation c7Engine {} [badCall]).2.2 badCall "t" "nope" "c9"
     "Expecting value" rfl rfl rfl rfl⟩

/-- C10: the empty todo list renders as the literal `"No todos yet."`;
no todo list ever renders as the empty string; consequently, on any
successful run started with an initialized todo sub-state, the
`todo_list` field of the final output is a non-empty string. -/
theorem c10_empty_todo_markdown (eng : AgentEngine) (prompt : String)
    (ts : TodoState) :
    TodoList.toMarkdown {} = "No todos yet." ∧
    (∀ l : TodoList, l.toMarkdown ≠ "") ∧
    ((eng.run { todo_state := some ts } prompt).success = true →
      ∃ md, dictGetJ (eng.run { todo_state := some ts } prompt).final_output
          "todo_list" = some (.str md) ∧ md ≠ "") := by
  refine ⟨rfl, todo_markdown_ne_empty, ?_⟩
  intro hsucc
  rw [run_cases] at hsucc ⊢
  have hmt := runLoop_meta_todo eng
    (eng.maxIterations -
      ((({ todo_state := some ts } : AgentState).addUserMessage
        prompt).iteration_count : Int)).toNat
    (({ todo_state := some ts } : AgentState).addUserMessage prompt)
  cases hr : runLoop eng
      (eng.maxIterations -
        ((({ todo_state := some ts } : AgentState).addUserMessage
          prompt).iteration_count : Int)).toNat
      (({ todo_state := some ts } : AgentState).addUserMessage prompt) with
  | done sf =>
    rw [hr] at hmt
    obtain ⟨hmeta, htodo⟩ := hmt
    have htodo' : sf.todo_state = some ts := htodo
    have hmeta' : sf.metadata = [] ∨
        sf.metadata = [("stop_reason", "max_iterations_reached")] := by
      rcases hmeta with hm | hm
      · exact Or.inl hm
      · exact Or.inr hm
    refine ⟨ts.todo_list.toMarkdown, ?_, todo_markdown_ne_empty ts.todo_list⟩
    show dictGetJ (extractFinalOutput sf) "todo_list" =
      some (.str ts.todo_list.toMarkdown)
    exact extractFinalOutput_todo sf ts htodo' hmeta'
  | failed e sf =>
    rw [hr] at hsucc
    exact absurd (show false = true from hsucc) (by decide)

/-- C10 witness: a stopping provider with an initialized (empty) todo
sub-state; the final output's `todo_list` is `"No todos yet."`. -/
theorem c10_empty_todo_markdown_witness :
    ((c4Engine.run { todo_state := some ({} : TodoState) } "p").success = true) ∧
    (∃ md, dictGetJ
        (c4Engine.run { todo_state := some ({} : TodoState) } "p").final_output
        "todo_list" = some (.str md) ∧ md ≠ "") :=
  ⟨rfl,
   (c10_empty_todo_markdown c4Engine "p" {}).2.2 rfl⟩

end AiCli
